import Mathlib

/-!
Verification of the tidal-constant extraction and prediction code
(`read_netcdf_model.py` and `predict_tide_drift.py`) against its
natural-language specification.

Numeric grid computations are embedded over `ℚ` (the Python code works on
double-precision arrays; exact rationals model the arithmetic).  The
trigonometric synthesis and the amplitude/phase conversion are embedded over
`ℝ`.  Masked arrays are modelled as value/Bool pairs; Python runtime errors
(`NameError`) are modelled with `Except`.
-/

namespace Captoolkit

/-! ## read_netcdf_model.py : basic grid helpers -/

/-- Entry `f[r][c]` of a 2-D array stored as a list of rows
(row index = latitude index, column index = longitude index),
with numpy-style 0 default outside the allocation. -/
def getRC (f : List (List ℚ)) (r c : ℕ) : ℚ := (f.getD r []).getD c 0

/-- Index of the grid segment used by a degree-1 spline / regular-grid
interpolator at abscissa `x`: the interval `[xs[i], xs[i+1])` containing `x`,
clamped to `[0, xs.length - 2]` (FITPACK interval search and
`np.searchsorted` clipped to the grid, as scipy does). -/
def segIdx : List ℚ → ℚ → ℕ
  | [], _ => 0
  | [_], _ => 0
  | [_, _], _ => 0
  | _ :: b :: c :: rest, x => if x < b then 0 else segIdx (b :: c :: rest) x + 1

/-- Normalized coordinate of `x` inside its selected segment
(`0` at the left node, `1` at the right node).  It lies in `[0,1]` whenever
`x` lies within the grid range; every spline evaluation clamps its
arguments into that range first (see `splineEv`) and the regular-grid
interpolator only evaluates in-bounds points, so the evaluation paths never
consume a fraction outside `[0,1]`. -/
def sFrac (xs : List ℚ) (x : ℚ) : ℚ :=
  (x - xs.getD (segIdx xs x) 0) /
    (xs.getD (segIdx xs x + 1) 0 - xs.getD (segIdx xs x) 0)

/-- Weight of the corner `(segIdx lon lo + dx, segIdx lat la + dy)`
(`dx dy ∈ {0,1}`) in the tensor-product degree-1 interpolation formula. -/
def cornerWeight (lon lat : List ℚ) (lo la : ℚ) (dx dy : ℕ) : ℚ :=
  (if dx = 0 then 1 - sFrac lon lo else sFrac lon lo) *
    (if dy = 0 then 1 - sFrac lat la else sFrac lat la)

/-- Tensor-product degree-1 interpolation of field `f` (rows = latitude,
columns = longitude) at `(lo, la)`.  For arguments within the grid range
this is both the value of the degree-1 bivariate spline
`scipy.interpolate.RectBivariateSpline(lon, lat, f.T, kx=1, ky=1)` and the
value of `RegularGridInterpolator((lat, lon), f, method='linear')`; the
spline evaluator feeds only clamped — hence in-range — arguments to it
(see `splineEv`), and the regular-grid interpolator only evaluates
in-bounds points. -/
def bilinear (lon lat : List ℚ) (f : List (List ℚ)) (lo la : ℚ) : ℚ :=
  cornerWeight lon lat lo la 0 0 * getRC f (segIdx lat la) (segIdx lon lo)
  + cornerWeight lon lat lo la 1 0 * getRC f (segIdx lat la) (segIdx lon lo + 1)
  + cornerWeight lon lat lo la 0 1 * getRC f (segIdx lat la + 1) (segIdx lon lo)
  + cornerWeight lon lat lo la 1 1 *
      getRC f (segIdx lat la + 1) (segIdx lon lo + 1)

/-- Clamp an evaluation argument into the spline's knot range
`[xs[0], xs[last]]`: FITPACK's `fpbisp`, the evaluator behind
`RectBivariateSpline.ev`, replaces every out-of-range argument by the
nearest endpoint of the knot range before evaluating. -/
def clampToGrid (xs : List ℚ) (x : ℚ) : ℚ :=
  max (xs.getD 0 0) (min x (xs.getLastD 0))

/-- Value of `RectBivariateSpline(lon, lat, f.T, kx=1, ky=1).ev(lo, la)`:
`fpbisp` clamps both arguments into the knot range and evaluates the
tensor-product degree-1 spline there, so an out-of-range query point
receives the nearest boundary value — never a fill value, never a linearly
extrapolated value, and never an exception. -/
def splineEv (lon lat : List ℚ) (f : List (List ℚ)) (lo la : ℚ) : ℚ :=
  bilinear lon lat f (clampToGrid lon lo) (clampToGrid lat la)

/-! ## read_netcdf_model.py lines 280-320 : extend_array / extend_matrix -/

/-- Lines 281-300: `extend_array` builds `[x0 - step, x0, ..., xN, xN + step]`.
(On an empty input the Python code would raise an IndexError at
`input_array[0]`; the function is only called on coordinate axes with
at least two entries.) -/
def extend_array (input_array : List ℚ) (step_size : ℚ) : List ℚ :=
  match input_array with
  | [] => []
  | x :: xs =>
      (x - step_size) :: ((x :: xs) ++ [(x :: xs).getLastD 0 + step_size])

/-- Lines 303-320: `extend_matrix` wraps the columns of each row:
`temp[:,0] = input[:,-1]`, `temp[:,1:-1] = input`, `temp[:,-1] = input[:,0]`.
Cells are an arbitrary type `α` (value-with-mask pairs in the callers), so
the validity mask stored in each cell is carried along unchanged. -/
def extend_matrix {α : Type} (input_matrix : List (List α)) : List (List α) :=
  input_matrix.map (fun row =>
    match row with
    | [] => []
    | x :: xs => (x :: xs).getLastD x :: ((x :: xs) ++ [x]))

/-! ## read_netcdf_model.py lines 150-155 : longitude adjustment -/

/-- Lines 152-153: `lt0, = np.nonzero(ilon < 0); ilon[lt0] += 360.0`.
Each negative query longitude is increased by 360 exactly once; nonnegative
entries (including entries at or above 360) are left unchanged.  The Python
code performs this update in place on the caller's array, so this function
is both the list of longitudes consumed by all subsequent interpolation and
the content of the caller's `ilon` array after the call. -/
def adjust_ilon (ilon : List ℚ) : List ℚ :=
  ilon.map (fun x => if x < 0 then x + 360 else x)

/-- Caller-visible content of the `ilon` argument after
`extract_netcdf_constants` returns: lines 152-153 mutate the array in place
(no copy is taken), so the caller observes the adjusted values. -/
def ilon_after (ilon : List ℚ) : List ℚ := adjust_ilon ilon

/-! ## helper lemmas about lists -/

theorem getLastD_tail (a : ℚ) (l : List ℚ) (d e : ℚ) (h : l ≠ []) :
    (a :: l).getLastD d = l.getLastD e := by
  rcases l with _ | ⟨b, l⟩
  · exact absurd rfl h
  · rw [List.getLastD_eq_getLast?, List.getLastD_eq_getLast?,
      List.getLast?_cons_cons,
      List.getLast?_eq_getLast (b :: l) (by simp)]
    rfl

theorem getD_map_nil {α β : Type} (f : List α → List β) (hf : f [] = [])
    (m : List (List α)) (i : ℕ) :
    (m.map f).getD i [] = f (m.getD i []) := by
  induction m generalizing i with
  | nil => simp [hf]
  | cons r m ih =>
      cases i with
      | zero => rfl
      | succ n => simpa using ih n

theorem chain'_lt_getD (xs : List ℚ) (hs : List.Chain' (· < ·) xs) (i : ℕ)
    (h : i + 1 < xs.length) : xs.getD i 0 < xs.getD (i + 1) 0 := by
  have h0 : i < xs.length := by omega
  rw [List.getD_eq_getElem xs 0 h0, List.getD_eq_getElem xs 0 h]
  have := List.chain'_iff_get.1 hs i (by omega)
  simpa [List.get_eq_getElem] using this

theorem segIdx_spec_aux (rest : List ℚ) : ∀ a b x : ℚ,
    List.Chain' (· < ·) (a :: b :: rest) → a ≤ x →
    x ≤ (a :: b :: rest).getLastD 0 →
    segIdx (a :: b :: rest) x + 1 < (a :: b :: rest).length ∧
      (a :: b :: rest).getD (segIdx (a :: b :: rest) x) 0 ≤ x ∧
      x ≤ (a :: b :: rest).getD (segIdx (a :: b :: rest) x + 1) 0 := by
  induction rest with
  | nil =>
      intro a b x _ h1 h2
      refine ⟨by simp [segIdx], by simpa [segIdx] using h1, ?_⟩
      simpa [segIdx] using h2
  | cons c rest ih =>
      intro a b x hc h1 h2
      by_cases hxb : x < b
      · refine ⟨by simp [segIdx, hxb], by simpa [segIdx, hxb] using h1, ?_⟩
        simpa [segIdx, hxb] using hxb.le
      · have hbx : b ≤ x := le_of_not_lt hxb
        have hc' : List.Chain' (· < ·) (b :: c :: rest) :=
          (List.chain'_cons.1 hc).2
        have h2' : x ≤ (b :: c :: rest).getLastD 0 := by
          rwa [getLastD_tail a (b :: c :: rest) 0 0 (by simp)] at h2
        obtain ⟨hl, hlo, hhi⟩ := ih b c x hc' hbx h2'
        have hl' : segIdx (b :: c :: rest) x + 1 < rest.length + 2 := by
          simpa using hl
        refine ⟨?_, ?_, ?_⟩
        · simp only [segIdx, if_neg hxb, List.length_cons]
          omega
        · simpa [segIdx, hxb] using hlo
        · simpa [segIdx, hxb] using hhi

theorem segIdx_spec (xs : List ℚ) (x : ℚ) (hs : List.Chain' (· < ·) xs)
    (h2 : 2 ≤ xs.length) (hlo : xs.getD 0 0 ≤ x) (hhi : x ≤ xs.getLastD 0) :
    segIdx xs x + 1 < xs.length ∧ xs.getD (segIdx xs x) 0 ≤ x ∧
      x ≤ xs.getD (segIdx xs x + 1) 0 := by
  rcases xs with _ | ⟨a, _ | ⟨b, rest⟩⟩
  · simp at h2
  · simp at h2
  · exact segIdx_spec_aux rest a b x hs (by simpa using hlo) hhi

theorem sFrac_bounds (xs : List ℚ) (x : ℚ) (hs : List.Chain' (· < ·) xs)
    (h2 : 2 ≤ xs.length) (hlo : xs.getD 0 0 ≤ x) (hhi : x ≤ xs.getLastD 0) :
    0 ≤ sFrac xs x ∧ sFrac xs x ≤ 1 := by
  obtain ⟨hlen, hle, hge⟩ := segIdx_spec xs x hs h2 hlo hhi
  have hlt : xs.getD (segIdx xs x) 0 < xs.getD (segIdx xs x + 1) 0 :=
    chain'_lt_getD xs hs (segIdx xs x) hlen
  unfold sFrac
  constructor
  · exact div_nonneg (by linarith) (by linarith)
  · rw [div_le_one (by linarith)]
    linarith

/-! ## C1 : longitude normalization -/

/-- Claim C1, corrected.  Lines 152-153 add 360 exactly once to each
negative query longitude and leave the rest untouched, so every input
longitude in `[-360, 360)` is mapped into the atlas convention `[0, 360)`
before interpolation (`adjust_ilon` is applied before any interpolant is
evaluated).  Inputs below `-360` or at or above `360` are NOT brought into
`[0, 360)` (see the counterexample). -/
theorem extract_adjusts_ilon_into_range (ilon : List ℚ)
    (h : ∀ x ∈ ilon, -360 ≤ x ∧ x < 360) :
    ∀ y ∈ adjust_ilon ilon, 0 ≤ y ∧ y < 360 := by
  intro y hy
  simp only [adjust_ilon, List.mem_map] at hy
  obtain ⟨x, hx, hxy⟩ := hy
  obtain ⟨h1, h2⟩ := h x hx
  by_cases hneg : x < 0
  · simp only [if_pos hneg] at hxy
    constructor <;> linarith [hxy.symm.le, hxy.le]
  · simp only [if_neg hneg] at hxy
    constructor <;> linarith [hxy.symm.le, hxy.le, not_lt.1 hneg]

/-- Witness for C1: the input longitudes `-10` and `350` are both mapped
into `[0, 360)`. -/
theorem extract_adjusts_ilon_into_range_witness :
    (0 ≤ (350:ℚ) ∧ (350:ℚ) < 360) ∧ (0 ≤ (359:ℚ) ∧ (359:ℚ) < 360) :=
  ⟨extract_adjusts_ilon_into_range [-10, 350] (by norm_num) 350 (by norm_num
      [adjust_ilon]),
   extract_adjusts_ilon_into_range [359] (by norm_num) 359 (by norm_num
      [adjust_ilon])⟩

/-- Counterexample to C1 as stated: the input longitude `400` (at or above
360) is used for the lookup unchanged, and `400` does not lie in `[0, 360)`;
the input `-500` (below `-360`) is shifted once to `-140`, which is still
negative. -/
theorem extract_adjusts_ilon_counterexample :
    adjust_ilon [400, -500] = [400, -140] ∧ ¬((400:ℚ) < 360) ∧
      ¬(0 ≤ (-140:ℚ)) := by
  refine ⟨?_, by norm_num, by norm_num⟩
  norm_num [adjust_ilon]

/-! ## C10 : in-place mutation of the caller's ilon array -/

/-- Claim C10, corrected.  `extract_netcdf_constants` mutates the caller's
`ilon` array in place (lines 152-153 index-assign into the argument), so the
array observed by the caller after the call equals the input exactly when no
entry is negative; any negative entry is incremented by 360. -/
theorem ilon_preserved_iff_nonneg (ilon : List ℚ) :
    ilon_after ilon = ilon ↔ ∀ x ∈ ilon, 0 ≤ x := by
  unfold ilon_after adjust_ilon
  induction ilon with
  | nil => simp
  | cons a l ih =>
      simp only [List.map_cons, List.cons.injEq, List.mem_cons]
      constructor
      · rintro ⟨h1, h2⟩
        intro x hx
        rcases hx with rfl | hx
        · by_contra hneg
          rw [if_pos (not_le.1 hneg)] at h1
          linarith [h1]
        · exact (ih.1 h2) x hx
      · intro h
        refine ⟨?_, ih.2 fun x hx => h x (Or.inr hx)⟩
        rw [if_neg (not_lt.2 (h a (Or.inl rfl)))]

/-- Counterexample to C10 as stated: with input `ilon = [-10]` the caller's
array holds `[350]` after the call, not the original values. -/
theorem ilon_mutation_counterexample :
    ilon_after [-10] = [350] ∧ ilon_after [-10] ≠ [-10] := by
  constructor <;> norm_num [ilon_after, adjust_ilon]

/-! ## C6 : extend_array / extend_matrix -/

/-- Claim C6, confirmed.  For a nonempty coordinate array, `extend_array`
returns an array two entries longer whose first entry is `coords[0] - step`,
whose last entry is `coords[n-1] + step`, and whose middle equals the input;
`extend_matrix` adds one column on each side of every row, copying the
opposite edge (column 0 = old last column, last column = old first column)
and keeping the middle columns; the cells (value-with-mask pairs in the
callers) are moved unchanged, so the mask is preserved. -/
theorem extend_array_matrix_spec {α : Type} (a : List ℚ) (s : ℚ)
    (ha : a ≠ []) (m : List (List α)) :
    (extend_array a s).length = a.length + 2 ∧
    (extend_array a s).head? = some (a.getD 0 0 - s) ∧
    (extend_array a s).getLast? = some (a.getLastD 0 + s) ∧
    ((extend_array a s).drop 1).take a.length = a ∧
    (extend_matrix m).length = m.length ∧
    (∀ i, ∀ r : List α, m.getD i [] = r → r ≠ [] →
      ((extend_matrix m).getD i []).length = r.length + 2 ∧
      ((extend_matrix m).getD i []).head? = r.getLast? ∧
      ((extend_matrix m).getD i []).getLast? = r.head? ∧
      (((extend_matrix m).getD i []).drop 1).take r.length = r) := by
  rcases a with _ | ⟨x, xs⟩
  · exact absurd rfl ha
  refine ⟨by simp [extend_array], by simp [extend_array], ?_, ?_, ?_, ?_⟩
  · show ((x - s) :: ((x :: xs) ++ [(x :: xs).getLastD 0 + s])).getLast? = _
    rw [show (x - s) :: ((x :: xs) ++ [(x :: xs).getLastD 0 + s]) =
        ((x - s) :: (x :: xs)) ++ [(x :: xs).getLastD 0 + s] from rfl,
      List.getLast?_concat]
  · show (((x :: xs) ++ [(x :: xs).getLastD 0 + s]).take (x :: xs).length) = _
    exact List.take_left (x :: xs) _
  · simp [extend_matrix]
  · intro i r hr hne
    have hmap : (extend_matrix m).getD i [] =
        (match m.getD i [] with
          | [] => []
          | x :: xs => (x :: xs).getLastD x :: ((x :: xs) ++ [x])) :=
      getD_map_nil _ rfl m i
    rcases r with _ | ⟨y, ys⟩
    · exact absurd rfl hne
    rw [hr] at hmap
    refine ⟨?_, ?_, ?_, ?_⟩
    · rw [hmap]
      show (((y :: ys).getLastD y) :: ((y :: ys) ++ [y])).length = _
      simp
    · rw [hmap]
      show some ((y :: ys).getLastD y) = (y :: ys).getLast?
      rw [List.getLastD_eq_getLast?,
        List.getLast?_eq_getLast (y :: ys) (by simp)]
      rfl
    · rw [hmap]
      show ((((y :: ys).getLastD y) :: (y :: ys)) ++ [y]).getLast? = _
      rw [List.getLast?_concat]
      rfl
    · rw [hmap]
      show (((y :: ys) ++ [y]).take (y :: ys).length) = _
      exact List.take_left (y :: ys) _

/-- Witness for C6 at a concrete coordinate array and matrix. -/
theorem extend_array_matrix_spec_witness :
    (extend_array [1, 2] 10).getLast? = some 12 ∧
      ((extend_matrix [[(5:ℚ), 7]]).getD 0 []).head? = some 7 := by
  have h := extend_array_matrix_spec [1, 2] 10 (by simp) [[(5:ℚ), 7]]
  have h1 := h.2.2.1
  have h2 := (h.2.2.2.2.2 0 [5, 7] rfl (by simp)).2.1
  constructor
  · rw [h1]
    norm_num [List.getLastD]
  · rw [h2]
    rfl

/-! ## read_netcdf_model.py lines 205-228 : per-constituent interpolation -/

/-- Bounds check of `scipy.interpolate.RegularGridInterpolator((lat, lon), ·)`
with axes in (latitude, longitude) order: a query point is in bounds when each
coordinate lies between the first and the last grid node of its axis. -/
def rgiInBounds (lat lon : List ℚ) (la lo : ℚ) : Bool :=
  decide (lat.getD 0 0 ≤ la) && decide (la ≤ lat.getLastD 0) &&
    decide (lon.getD 0 0 ≤ lo) && decide (lo ≤ lon.getLastD 0)

/-- Grid node chosen by `method='nearest'`: the nearer endpoint of the
segment containing `x`, ties to the lower node (scipy's
`norm_distances <= 0.5` test). -/
def nearestIdx (xs : List ℚ) (x : ℚ) : ℕ :=
  if x - xs.getD (segIdx xs x) 0 ≤ xs.getD (segIdx xs x + 1) 0 - x then
    segIdx xs x
  else segIdx xs x + 1

/-- Interpolation core of lines 219-225:
`RegularGridInterpolator((lat, lon), f, method=METHOD, bounds_error=False,
fill_value=fill)` evaluated at `(la, lo)`: out-of-bounds points get `fill`,
in-bounds points the multilinear (= bilinear) or nearest-node value. -/
def rgiEval (lat lon : List ℚ) (f : List (List ℚ)) (method : String)
    (fill : ℚ) (la lo : ℚ) : ℚ :=
  if rgiInBounds lat lon la lo = true then
    if method = "nearest" then getRC f (nearestIdx lat la) (nearestIdx lon lo)
    else bilinear lon lat f lo la
  else fill

/-- Lines 205-216 (`METHOD='spline'`), for one constituent at one query
point: real part, imaginary part and 0/1 mask of the constituent field are
each interpolated by a degree-1 bivariate spline
(`RectBivariateSpline(lon, lat, ·.T, kx=1, ky=1).ev(ilon, ilat)`, whose
FITPACK evaluator clamps out-of-range arguments to the grid boundary and
never raises); the interpolated mask is thresholded by `astype(bool)` (any
nonzero value means invalid) and masked samples are overwritten with the
fill value (`z1.data[z1.mask] = z1.fill_value`, the complex fill modelled
as a pair). -/
def z1_spline (lon lat : List ℚ) (zre zim zmask : List (List ℚ))
    (fillc : ℚ × ℚ) (lo la : ℚ) : (ℚ × ℚ) × Bool :=
  let d : ℚ × ℚ := (splineEv lon lat zre lo la, splineEv lon lat zim lo la)
  let m : Bool := decide (splineEv lon lat zmask lo la ≠ 0)
  (if m = true then fillc else d, m)

/-- Lines 217-228 (`METHOD` = `'linear'` or `'nearest'`), for one
constituent at one query point: the complex field is interpolated with fill
value `fillc` (the masked array's fill value) and the 0/1 mask field with
fill value 1; the interpolated mask is `np.ceil`-ed to a Bool, or-ed with a
comparison of the data against the fill value
(`z1.mask |= (z1.data == z1.fill_value)`), and masked samples are
overwritten with the fill value. -/
def z1_rgi (lon lat : List ℚ) (zre zim zmask : List (List ℚ))
    (fillc : ℚ × ℚ) (method : String) (lo la : ℚ) : (ℚ × ℚ) × Bool :=
  let d : ℚ × ℚ := if rgiInBounds lat lon la lo = true then
      (if method = "nearest" then
        (getRC zre (nearestIdx lat la) (nearestIdx lon lo),
         getRC zim (nearestIdx lat la) (nearestIdx lon lo))
       else (bilinear lon lat zre lo la, bilinear lon lat zim lo la))
    else fillc
  let m : Bool := decide (⌈rgiEval lat lon zmask method 1 la lo⌉ ≠ (0:ℤ)) ||
    decide (d = fillc)
  (if m = true then fillc else d, m)

/-! ## C2 : out-of-bounds query points -/

theorem z1_rgi_oob_eq (lon lat : List ℚ) (zre zim zmask : List (List ℚ))
    (fillc : ℚ × ℚ) (method : String) (lo la : ℚ)
    (hob : rgiInBounds lat lon la lo = false) :
    z1_rgi lon lat zre zim zmask fillc method lo la = (fillc, true) := by
  unfold z1_rgi rgiEval
  rw [hob]
  simp

/-- Claim C2, corrected: restricted to the `linear` and `nearest` methods.
With `bounds_error=False`, a query point outside the (extended) grid does
not raise and is not extrapolated: the regular-grid interpolator returns the
designated fill value for the data and 1 for the mask field, so the output
at that point is exactly the fill value with an invalid mask entry.  (For
`METHOD='spline'` the code instead clamps the query to the grid boundary
and evaluates there, so the output carries the boundary value and boundary
mask; see the counterexample.) -/
theorem rgi_out_of_bounds_masked (lon lat : List ℚ)
    (zre zim zmask : List (List ℚ)) (fillc : ℚ × ℚ) (method : String)
    (lo la : ℚ) (_hm : method = "linear" ∨ method = "nearest")
    (hob : rgiInBounds lat lon la lo = false) :
    z1_rgi lon lat zre zim zmask fillc method lo la = (fillc, true) :=
  z1_rgi_oob_eq lon lat zre zim zmask fillc method lo la hob

/-- Witness for C2 (amended): a query latitude of 5 on the latitude grid
`[0, 1]` is out of bounds and yields the fill value with an invalid mask. -/
theorem rgi_out_of_bounds_masked_witness :
    z1_rgi [0, 1] [0, 1] [[2, 2], [2, 2]] [[0, 0], [0, 0]] [[0, 0], [0, 0]]
      (999999, 0) "linear" (1/2) 5 = ((999999, 0), true) :=
  rgi_out_of_bounds_masked [0, 1] [0, 1] [[2, 2], [2, 2]] [[0, 0], [0, 0]]
    [[0, 0], [0, 0]] (999999, 0) "linear" (1/2) 5 (Or.inl rfl)
    (by norm_num [rgiInBounds, List.getLastD])

/-- Counterexample to C2 as stated: with `METHOD='spline'`, the out-of-bounds
query longitude 2 on the longitude grid `[0, 1]` is NOT masked invalid and
NOT assigned the fill value: FITPACK clamps the query to the grid boundary
(longitude 1) and evaluates the all-valid constant field 5 there, so the
output is the boundary value 5 with a valid mask entry — not the fill value
999999 with an invalid mask. -/
theorem spline_oob_not_masked_counterexample :
    rgiInBounds [0, 1] [0, 1] (1/2) 2 = false ∧
      z1_spline [0, 1] [0, 1] [[5, 5], [5, 5]] [[0, 0], [0, 0]]
        [[0, 0], [0, 0]] (999999, 0) 2 (1/2) = ((5, 0), false) ∧
      ((5:ℚ), (0:ℚ)) ≠ ((999999:ℚ), (0:ℚ)) := by
  refine ⟨?_, ?_, ?_⟩
  · norm_num [rgiInBounds, List.getLastD]
  · norm_num [z1_spline, splineEv, clampToGrid, bilinear, cornerWeight,
      sFrac, segIdx, getRC, List.getLastD]
  · norm_num

/-! ## C4 : mask propagation through the interpolation support -/

theorem cornerWeight_nonneg (lon lat : List ℚ) (lo la : ℚ)
    (hs1 : 0 ≤ sFrac lon lo) (hs2 : sFrac lon lo ≤ 1)
    (ht1 : 0 ≤ sFrac lat la) (ht2 : sFrac lat la ≤ 1) (dx dy : ℕ) :
    0 ≤ cornerWeight lon lat lo la dx dy := by
  unfold cornerWeight
  apply mul_nonneg <;> split <;> linarith

theorem getD_zero_le_getLastD (xs : List ℚ) (hs : List.Chain' (· < ·) xs)
    (hne : xs ≠ []) : xs.getD 0 0 ≤ xs.getLastD 0 := by
  induction xs with
  | nil => exact absurd rfl hne
  | cons a l ih =>
      rcases l with _ | ⟨b, l'⟩
      · simp [List.getLastD]
      · have hab : a < b := (List.chain'_cons.1 hs).1
        have hb := ih (List.chain'_cons.1 hs).2 (by simp)
        rw [getLastD_tail a (b :: l') 0 0 (by simp)]
        have hbd : (b :: l').getD 0 0 = b := rfl
        rw [hbd] at hb
        have had : (a :: b :: l').getD 0 0 = a := rfl
        rw [had]
        linarith

theorem clampToGrid_mem (xs : List ℚ) (hs : List.Chain' (· < ·) xs)
    (h2 : 2 ≤ xs.length) (x : ℚ) :
    xs.getD 0 0 ≤ clampToGrid xs x ∧ clampToGrid xs x ≤ xs.getLastD 0 := by
  have hhl : xs.getD 0 0 ≤ xs.getLastD 0 :=
    getD_zero_le_getLastD xs hs (by rintro rfl; simp at h2)
  unfold clampToGrid
  exact ⟨le_max_left _ _, max_le hhl (min_le_right x _)⟩

theorem bilinear_mask_pos (lon lat : List ℚ) (zmask : List (List ℚ))
    (lo la : ℚ)
    (hs1 : 0 ≤ sFrac lon lo) (hs2 : sFrac lon lo ≤ 1)
    (ht1 : 0 ≤ sFrac lat la) (ht2 : sFrac lat la ≤ 1)
    (h01 : ∀ r c, getRC zmask r c = 0 ∨ getRC zmask r c = 1)
    (hsup : ∃ dx ≤ 1, ∃ dy ≤ 1,
      getRC zmask (segIdx lat la + dy) (segIdx lon lo + dx) = 1 ∧
      cornerWeight lon lat lo la dx dy ≠ 0) :
    0 < bilinear lon lat zmask lo la := by
  obtain ⟨dx, hdx, dy, hdy, hm1, hw⟩ := hsup
  have hterm : ∀ w v : ℚ, 0 ≤ w → (v = 0 ∨ v = 1) → 0 ≤ w * v := by
    rintro w v hwn (rfl | rfl) <;> simpa using hwn
  have hv00 := h01 (segIdx lat la) (segIdx lon lo)
  have hv10 := h01 (segIdx lat la) (segIdx lon lo + 1)
  have hv01 := h01 (segIdx lat la + 1) (segIdx lon lo)
  have hv11 := h01 (segIdx lat la + 1) (segIdx lon lo + 1)
  have hw00 := cornerWeight_nonneg lon lat lo la hs1 hs2 ht1 ht2 0 0
  have hw10 := cornerWeight_nonneg lon lat lo la hs1 hs2 ht1 ht2 1 0
  have hw01 := cornerWeight_nonneg lon lat lo la hs1 hs2 ht1 ht2 0 1
  have hw11 := cornerWeight_nonneg lon lat lo la hs1 hs2 ht1 ht2 1 1
  have ht00 := hterm _ _ hw00 hv00
  have ht10 := hterm _ _ hw10 hv10
  have ht01 := hterm _ _ hw01 hv01
  have ht11 := hterm _ _ hw11 hv11
  unfold bilinear
  interval_cases dx <;> interval_cases dy <;>
    (try simp only [Nat.add_zero] at hm1 hw) <;> rw [hm1, mul_one]
  · have hwpos := lt_of_le_of_ne hw00 (Ne.symm hw)
    linarith
  · have hwpos := lt_of_le_of_ne hw01 (Ne.symm hw)
    linarith
  · have hwpos := lt_of_le_of_ne hw10 (Ne.symm hw)
    linarith
  · have hwpos := lt_of_le_of_ne hw11 (Ne.symm hw)
    linarith

/-- Claim C4, confirmed.  For every interpolation method, if a masked
(invalid) source cell lies in the interpolation support of a query point
with nonzero weight, the output at that point is marked invalid, so a
masked sample is never averaged into a numerically valid output.  For
`METHOD='spline'` this holds at EVERY query point: FITPACK clamps
out-of-range arguments to the grid boundary, so the support is that of the
clamped point, all four weights are nonnegative, the interpolated 0/1 mask
is strictly positive and `astype(bool)` forces the output mask.  For
`linear`, in-bounds points propagate the mask the same way via `np.ceil`,
and out-of-bounds points are always masked invalid (fill value 1 on the
mask field); for `nearest`, a masked nearest cell forces the mask and
out-of-bounds points are always masked invalid. -/
theorem mask_propagates (lon lat : List ℚ) (zre zim zmask : List (List ℚ))
    (fillc : ℚ × ℚ) (lo la : ℚ)
    (hlon : List.Chain' (· < ·) lon) (hlat : List.Chain' (· < ·) lat)
    (hlon2 : 2 ≤ lon.length) (hlat2 : 2 ≤ lat.length)
    (h01 : ∀ r c, getRC zmask r c = 0 ∨ getRC zmask r c = 1) :
    ((∃ dx ≤ 1, ∃ dy ≤ 1,
        getRC zmask (segIdx lat (clampToGrid lat la) + dy)
          (segIdx lon (clampToGrid lon lo) + dx) = 1 ∧
        cornerWeight lon lat (clampToGrid lon lo) (clampToGrid lat la)
          dx dy ≠ 0) →
      (z1_spline lon lat zre zim zmask fillc lo la).2 = true) ∧
    (rgiInBounds lat lon la lo = true →
      (∃ dx ≤ 1, ∃ dy ≤ 1,
        getRC zmask (segIdx lat la + dy) (segIdx lon lo + dx) = 1 ∧
        cornerWeight lon lat lo la dx dy ≠ 0) →
      (z1_rgi lon lat zre zim zmask fillc "linear" lo la).2 = true) ∧
    (rgiInBounds lat lon la lo = false →
      (z1_rgi lon lat zre zim zmask fillc "linear" lo la).2 = true ∧
        (z1_rgi lon lat zre zim zmask fillc "nearest" lo la).2 = true) ∧
    (rgiInBounds lat lon la lo = true →
      getRC zmask (nearestIdx lat la) (nearestIdx lon lo) = 1 →
      (z1_rgi lon lat zre zim zmask fillc "nearest" lo la).2 = true) := by
  refine ⟨?_, ?_, ?_, ?_⟩
  · intro hsup
    obtain ⟨hc1, hc2⟩ := clampToGrid_mem lon hlon hlon2 lo
    obtain ⟨hc3, hc4⟩ := clampToGrid_mem lat hlat hlat2 la
    have hsl := sFrac_bounds lon (clampToGrid lon lo) hlon hlon2 hc1 hc2
    have hst := sFrac_bounds lat (clampToGrid lat la) hlat hlat2 hc3 hc4
    have hpos := bilinear_mask_pos lon lat zmask (clampToGrid lon lo)
      (clampToGrid lat la) hsl.1 hsl.2 hst.1 hst.2 h01 hsup
    show decide (splineEv lon lat zmask lo la ≠ 0) = true
    exact decide_eq_true (ne_of_gt hpos)
  · intro hib hsup
    have hib' := hib
    unfold rgiInBounds at hib'
    simp only [Bool.and_eq_true, decide_eq_true_eq] at hib'
    obtain ⟨⟨⟨hla1, hla2⟩, hlo1⟩, hlo2⟩ := hib'
    have hsl := sFrac_bounds lon lo hlon hlon2 hlo1 hlo2
    have hst := sFrac_bounds lat la hlat hlat2 hla1 hla2
    have hpos := bilinear_mask_pos lon lat zmask lo la hsl.1 hsl.2 hst.1
      hst.2 h01 hsup
    have hre : rgiEval lat lon zmask "linear" 1 la lo =
        bilinear lon lat zmask lo la := by
      unfold rgiEval
      rw [hib]
      simp
    have h1 : (⌈rgiEval lat lon zmask "linear" 1 la lo⌉ : ℤ) ≠ 0 := by
      rw [hre]
      exact ne_of_gt (Int.ceil_pos.2 hpos)
    simp [z1_rgi, h1]
  · intro hob
    refine ⟨?_, ?_⟩ <;>
      rw [z1_rgi_oob_eq lon lat zre zim zmask fillc _ lo la hob]
  · intro hib hm1
    have hre : rgiEval lat lon zmask "nearest" 1 la lo = 1 := by
      unfold rgiEval
      rw [hib]
      simp [hm1]
    have h1 : (⌈rgiEval lat lon zmask "nearest" 1 la lo⌉ : ℤ) ≠ 0 := by
      rw [hre, Int.ceil_one]
      norm_num
    simp [z1_rgi, h1]

/-- Witness for C4: on the 3×3 grid with the single masked cell (1,1), the
in-bounds query point (5/8, 5/8) is marked invalid by all three
interpolation methods, and the out-of-bounds query longitude 9 is marked
invalid by the linear method. -/
theorem mask_propagates_witness :
    (z1_spline [0, 1, 2] [0, 1, 2] [[0,0,0],[0,0,0],[0,0,0]]
        [[0,0,0],[0,0,0],[0,0,0]] [[0,0,0],[0,1,0],[0,0,0]]
        (999999, 0) (5/8) (5/8)).2 = true ∧
      (z1_rgi [0, 1, 2] [0, 1, 2] [[0,0,0],[0,0,0],[0,0,0]]
        [[0,0,0],[0,0,0],[0,0,0]] [[0,0,0],[0,1,0],[0,0,0]]
        (999999, 0) "linear" (5/8) (5/8)).2 = true ∧
      (z1_rgi [0, 1, 2] [0, 1, 2] [[0,0,0],[0,0,0],[0,0,0]]
        [[0,0,0],[0,0,0],[0,0,0]] [[0,0,0],[0,1,0],[0,0,0]]
        (999999, 0) "nearest" (5/8) (5/8)).2 = true ∧
      (z1_rgi [0, 1, 2] [0, 1, 2] [[0,0,0],[0,0,0],[0,0,0]]
        [[0,0,0],[0,0,0],[0,0,0]] [[0,0,0],[0,1,0],[0,0,0]]
        (999999, 0) "linear" 9 (5/8)).2 = true := by
  have hm01 : ∀ r c, getRC [[(0:ℚ),0,0],[0,1,0],[0,0,0]] r c = 0 ∨
      getRC [[(0:ℚ),0,0],[0,1,0],[0,0,0]] r c = 1 := by
    intro r c
    unfold getRC
    rcases r with _ | _ | _ | r <;> rcases c with _ | _ | _ | c <;>
      simp [List.getD]
  have h := mask_propagates [0, 1, 2] [0, 1, 2]
    [[0,0,0],[0,0,0],[0,0,0]] [[0,0,0],[0,0,0],[0,0,0]]
    [[0,0,0],[0,1,0],[0,0,0]] (999999, 0) (5/8) (5/8)
    (by norm_num [List.chain'_cons]) (by norm_num [List.chain'_cons])
    (by norm_num) (by norm_num) hm01
  have h2 := mask_propagates [0, 1, 2] [0, 1, 2]
    [[0,0,0],[0,0,0],[0,0,0]] [[0,0,0],[0,0,0],[0,0,0]]
    [[0,0,0],[0,1,0],[0,0,0]] (999999, 0) 9 (5/8)
    (by norm_num [List.chain'_cons]) (by norm_num [List.chain'_cons])
    (by norm_num) (by norm_num) hm01
  refine ⟨h.1 ⟨1, by omega, 1, by omega, ?_, ?_⟩,
    h.2.1 (by norm_num [rgiInBounds, List.getLastD])
      ⟨1, by omega, 1, by omega, ?_, ?_⟩,
    h.2.2.2 (by norm_num [rgiInBounds, List.getLastD])
      (by norm_num [getRC, nearestIdx, segIdx]),
    (h2.2.2.1 (by norm_num [rgiInBounds, List.getLastD])).1⟩
  · norm_num [getRC, segIdx, clampToGrid, List.getLastD]
  · norm_num [cornerWeight, sFrac, segIdx, clampToGrid, List.getLastD]
  · norm_num [getRC, segIdx]
  · norm_num [cornerWeight, sFrac, segIdx]

/-! ## Python runtime errors, the grid-file stage and the constituent loop -/

/-- Failure modes relevant to the analyzed code paths: a Python `NameError`
on an unbound variable, and the `UnsupportedVariableType` error the spec
postulates for a bad `TYPE` argument. -/
inductive PyErr where
  | nameErr (n : String)
  | unsupportedVariableType
  deriving DecidableEq

/-- Observable I/O events of the grid-file stage. -/
inductive GridEv where
  | openGridFile
  | readDims
  | readVar (name : String)
  deriving DecidableEq

/-- Lines 104-141: the grid-file stage of `extract_netcdf_constants`.  The
grid file is opened and its `nx`/`ny` dimensions read unconditionally; then
`TYPE` selects which bathymetry/coordinate variables to read.  There is no
validation of `TYPE`: for any other value no branch assigns `lon`/`lat`, and
line 140 (`dlon = lon[1] - lon[0]`) raises `NameError` for the unbound name
`lon` — after the I/O has already happened.  The result records the I/O
trace in order and the outcome (the node kind read, or the error). -/
def grid_stage (TYPE : String) : List GridEv × Except PyErr String :=
  let tr : List GridEv := [GridEv.openGridFile, GridEv.readDims]
  if TYPE = "z" then
    (tr ++ [GridEv.readVar "hz", GridEv.readVar "lon_z", GridEv.readVar "lat_z"],
     Except.ok "z-nodes")
  else if TYPE = "U" ∨ TYPE = "u" then
    (tr ++ [GridEv.readVar "hu", GridEv.readVar "lon_u", GridEv.readVar "lat_u"],
     Except.ok "u-nodes")
  else if TYPE = "V" ∨ TYPE = "v" then
    (tr ++ [GridEv.readVar "hv", GridEv.readVar "lon_v", GridEv.readVar "lat_v"],
     Except.ok "v-nodes")
  else (tr, Except.error (PyErr.nameErr "lon"))

/-- Names bound in the enclosing function scope that the mask-filling line of
the transport branch (line 253) may reference: `z1` is assigned only inside
the `TYPE == 'z'` branch (line 203), so its fill value is present in scope
only there. -/
structure FnScope where
  z1_fill : Option (ℚ × ℚ)

/-- Python name lookup for `z1.fill_value`: `NameError` when `z1` was never
bound in the executing scope. -/
def lookup_z1_fill (s : FnScope) : Except PyErr (ℚ × ℚ) :=
  match s.z1_fill with
  | some v => Except.ok v
  | none => Except.error (PyErr.nameErr "z1")

/-- Line 253 (`tr1.data[tr1.mask] = z1.fill_value`): the right-hand side is
evaluated first, so the lookup of `z1` happens unconditionally; on success
the masked samples are overwritten with the looked-up fill value. -/
def transport_spline_maskfill (s : FnScope) (tr1 : (ℚ × ℚ) × Bool) :
    Except PyErr ((ℚ × ℚ) × Bool) :=
  match lookup_z1_fill s with
  | Except.error e => Except.error e
  | Except.ok fv => Except.ok (if tr1.2 = true then (fv, tr1.2) else tr1)

/-- One constituent's gridded complex field with its 0/1 validity mask,
as returned by `read_elevation_file` / `read_transport_file` and extended
by `extend_matrix`. -/
structure ConstituentField where
  re : List (List ℚ)
  im : List (List ℚ)
  mask : List (List ℚ)

/-- Lines 242-251: spline interpolation of one transport constituent at one
query point (same interpolation as the elevation branch, before the broken
mask-filling line). -/
def transport_spline_interp (lon lat : List ℚ) (g : ConstituentField)
    (lo la : ℚ) : (ℚ × ℚ) × Bool :=
  ((splineEv lon lat g.re lo la, splineEv lon lat g.im lo la),
   decide (splineEv lon lat g.mask lo la ≠ 0))

/-- Lines 177-182: the per-point unit-conversion divisor.  For the velocity
types `u`/`v` (cm/s) it is the interpolated bathymetry divided by 100; for
the depth-averaged transport types `U`/`V` (m²/s) it is 1; for any other
type the name `unit_conv` is never assigned (`none`). -/
def unit_conv (TYPE : String) (Dval : ℚ) : Option ℚ :=
  if TYPE = "v" ∨ TYPE = "u" then some (Dval / 100)
  else if TYPE = "V" ∨ TYPE = "U" then some 1
  else none

/-- Line 267 (`tr1 = tr1/unit_conv`): the interpolated complex transport
sample is divided componentwise by the divisor of lines 177-182. -/
def convert_units (TYPE : String) (Dval : ℚ) (tr : ℚ × ℚ) :
    Option (ℚ × ℚ) :=
  match unit_conv TYPE Dval with
  | some u => some (tr.1 / u, tr.2 / u)
  | none => none

/-- Lines 242-270 for one transport constituent with `METHOD='spline'`:
interpolate, run the mask-filling line (whose right-hand side references the
unbound `z1`, hence the scope with `z1_fill := none`), then convert units.
The divisor is passed in already resolved (the claim paths use transport
types, for which `unit_conv` is always assigned). -/
def transport_constituent_spline (lon lat : List ℚ) (g : ConstituentField)
    (uc : ℚ) (lo la : ℚ) : Except PyErr ((ℚ × ℚ) × Bool) :=
  match transport_spline_maskfill ⟨none⟩
      (transport_spline_interp lon lat g lo la) with
  | Except.error e => Except.error e
  | Except.ok t => Except.ok ((t.1.1 / uc, t.1.2 / uc), t.2)

/-- Lines 193-270 with `METHOD='spline'`: the per-constituent loop.  In the
`TYPE == 'z'` branch `z1` is bound before use, so every constituent succeeds;
in the transport branch the mask-filling line references `z1`, which is
unbound there; for any other `TYPE` the loop body does nothing (that case is
unreachable, the grid stage having already raised). -/
def constituent_loop_spline (TYPE : String) (lon lat : List ℚ)
    (gs : List ConstituentField) (fillc : ℚ × ℚ) (uc : ℚ) (lo la : ℚ) :
    Except PyErr (List ((ℚ × ℚ) × Bool)) :=
  if TYPE = "z" then
    Except.ok (gs.map (fun g => z1_spline lon lat g.re g.im g.mask fillc lo la))
  else if TYPE = "U" ∨ TYPE = "u" ∨ TYPE = "V" ∨ TYPE = "v" then
    gs.mapM (fun g => transport_constituent_spline lon lat g uc lo la)
  else Except.ok []

/-! ## C3 : NameError in the transport spline branch -/

/-- Claim C3, confirmed.  For every transport variable type with
`METHOD='spline'` and at least one model file, the mask-filling step of the
transport branch evaluates the name `z1`, which is never bound in that
branch, so the constituent loop raises `NameError: z1` on the first
constituent and never returns transport amplitudes and phases. -/
theorem transport_spline_raises_nameerror (TYPE : String)
    (h : TYPE = "u" ∨ TYPE = "U" ∨ TYPE = "v" ∨ TYPE = "V")
    (lon lat : List ℚ) (g : ConstituentField) (gs : List ConstituentField)
    (fillc : ℚ × ℚ) (uc lo la : ℚ) :
    constituent_loop_spline TYPE lon lat (g :: gs) fillc uc lo la =
      Except.error (PyErr.nameErr "z1") := by
  rcases h with h | h | h | h <;> subst h <;> rfl

/-- Witness for C3 at a concrete transport call. -/
theorem transport_spline_raises_nameerror_witness :
    constituent_loop_spline "u" [0, 1] [0, 1]
        [⟨[[1, 1], [1, 1]], [[0, 0], [0, 0]], [[0, 0], [0, 0]]⟩]
        (999999, 0) 1 (1/2) (1/2) =
      Except.error (PyErr.nameErr "z1") :=
  transport_spline_raises_nameerror "u" (Or.inl rfl) [0, 1] [0, 1]
    ⟨[[1, 1], [1, 1]], [[0, 0], [0, 0]], [[0, 0], [0, 0]]⟩ []
    (999999, 0) 1 (1/2) (1/2)

/-! ## C8 : velocity unit conversion -/

/-- Claim C8, corrected.  For the velocity types `u`/`v` the interpolated
complex transport sample is divided componentwise by `D/100` — one
hundredth of the local interpolated depth (equivalently, multiplied by
`100/D`), converting transports to cm/s velocities — NOT by the depth in
meters itself; for the depth-averaged-transport types `U`/`V` the divisor is
1 and the sample is unchanged. -/
theorem convert_units_spec (TYPE : String) (Dval : ℚ) (tr : ℚ × ℚ) :
    ((TYPE = "u" ∨ TYPE = "v") →
      convert_units TYPE Dval tr =
        some (100 * tr.1 / Dval, 100 * tr.2 / Dval)) ∧
    ((TYPE = "U" ∨ TYPE = "V") → convert_units TYPE Dval tr = some tr) := by
  constructor
  · rintro (h | h) <;> subst h <;>
      simp [convert_units, unit_conv, div_div_eq_mul_div, mul_comm]
  · rintro (h | h) <;> subst h <;> simp [convert_units, unit_conv]

/-- Witness for C8 (amended): a transport sample of 1 over 200 m of water
becomes the velocity 1/2 (cm/s), and a depth-averaged transport sample is
unchanged. -/
theorem convert_units_spec_witness :
    convert_units "u" 200 (1, 0) = some (1/2, 0) ∧
      convert_units "U" 200 (1, 0) = some (1, 0) := by
  have h1 := (convert_units_spec "u" 200 (1, 0)).1 (Or.inl rfl)
  have h2 := (convert_units_spec "U" 200 (1, 0)).2 (Or.inl rfl)
  rw [h1, h2]
  norm_num

/-- Counterexample to C8 as stated: with local depth 200 m, the transport
sample 1 is divided by `200/100 = 2`, yielding 1/2 — not divided by the
depth in meters, which would yield 1/200. -/
theorem convert_units_counterexample :
    convert_units "u" 200 (1, 0) = some (1/2, 0) ∧
      (1:ℚ)/2 ≠ 1/200 := by
  constructor
  · norm_num [convert_units, unit_conv]
  · norm_num

/-! ## C9 : unsupported variable type -/

/-- Claim C9, corrected.  No `UnsupportedVariableType` check exists: for any
`TYPE` outside `{z, u, U, v, V}` the grid file is opened and its dimensions
read first, and the call then fails with a `NameError` for the unbound name
`lon` at line 140 — after I/O, and not with an `UnsupportedVariableType`
error. -/
theorem bad_type_fails_after_io (TYPE : String) (hz : TYPE ≠ "z")
    (hu : TYPE ≠ "u") (hU : TYPE ≠ "U") (hv : TYPE ≠ "v") (hV : TYPE ≠ "V") :
    grid_stage TYPE =
      ([GridEv.openGridFile, GridEv.readDims],
        Except.error (PyErr.nameErr "lon")) := by
  unfold grid_stage
  simp [hz, hu, hU, hv, hV]

/-- Witness for C9 (amended) at the concrete unsupported type `"w"`. -/
theorem bad_type_fails_after_io_witness :
    grid_stage "w" =
      ([GridEv.openGridFile, GridEv.readDims],
        Except.error (PyErr.nameErr "lon")) :=
  bad_type_fails_after_io "w" (by decide) (by decide) (by decide) (by decide)
    (by decide)

/-- Counterexample to C9 as stated: for the unsupported type `"q"` the
grid file IS opened (the open event is in the I/O trace) and the resulting
error is a `NameError`, not `UnsupportedVariableType` reported before any
I/O. -/
theorem bad_type_counterexample :
    GridEv.openGridFile ∈ (grid_stage "q").1 ∧
      (grid_stage "q").2 = Except.error (PyErr.nameErr "lon") ∧
      (grid_stage "q").2 ≠ Except.error PyErr.unsupportedVariableType := by
  have h2 : (grid_stage "q").2 = Except.error (PyErr.nameErr "lon") := rfl
  refine ⟨by decide, h2, ?_⟩
  rw [h2]
  intro h
  exact PyErr.noConfusion (Except.error.inj h)

/-! ## read_netcdf_model.py lines 229-231, 272-278 : amplitude and phase -/

/-- Convention of `np.arctan2` on the reals (signed zeros ignored):
quadrant-aware arctangent with range `(-pi, pi]` and `arctan2(0, 0) = 0`. -/
noncomputable def np_arctan2 (y x : ℝ) : ℝ :=
  if 0 < x then Real.arctan (y / x)
  else if x < 0 then
    (if 0 ≤ y then Real.arctan (y / x) + Real.pi
     else Real.arctan (y / x) - Real.pi)
  else (if 0 < y then Real.pi / 2 else if y < 0 then -(Real.pi / 2) else 0)

/-- Lines 230 and 273: per-entry output amplitude, `np.abs(z1)` (the complex
modulus) scaled by `SCALE`. -/
noncomputable def amplitude_out (SCALE : ℝ) (z : ℝ × ℝ) : ℝ :=
  Real.sqrt (z.1 ^ 2 + z.2 ^ 2) * SCALE

/-- Lines 231 and 275-276: per-entry output phase,
`np.arctan2(-imag, real)` converted to degrees (`phase*180/pi`) with
negative results shifted by one turn (`phase[phase < 0] += 360`). -/
noncomputable def phase_out (z : ℝ × ℝ) : ℝ :=
  if np_arctan2 (-z.2) z.1 * 180 / Real.pi < 0 then
    np_arctan2 (-z.2) z.1 * 180 / Real.pi + 360
  else np_arctan2 (-z.2) z.1 * 180 / Real.pi

theorem np_arctan2_range (y x : ℝ) :
    -Real.pi < np_arctan2 y x ∧ np_arctan2 y x ≤ Real.pi := by
  have hpi := Real.pi_pos
  have h1 := Real.arctan_lt_pi_div_two (y / x)
  have h2 := Real.neg_pi_div_two_lt_arctan (y / x)
  unfold np_arctan2
  split
  · constructor <;> linarith
  · rename_i hx0
    split
    · rename_i hx
      split
      · rename_i hy
        have hyx : y / x ≤ 0 := div_nonpos_iff.2 (Or.inl ⟨hy, hx.le⟩)
        have h3 : Real.arctan (y / x) ≤ 0 := by
          have := Real.arctan_strictMono.monotone hyx
          rwa [Real.arctan_zero] at this
        constructor <;> linarith
      · rename_i hy
        have hyx : 0 < y / x := div_pos_of_neg_of_neg (not_le.1 hy) hx
        have h3 : 0 < Real.arctan (y / x) := by
          have := Real.arctan_strictMono hyx
          rwa [Real.arctan_zero] at this
        constructor <;> linarith
    · split
      · constructor <;> linarith
      · split
        · constructor <;> linarith
        · constructor <;> linarith

/-- Claim C7, confirmed.  For every interpolated (and possibly
unit-converted) complex sample `z` and scale factor `SCALE`, the returned
amplitude is the complex modulus `|z|` times `SCALE`, and the returned phase
is `atan2(-Im z, Re z)` converted to degrees (up to the single +360 turn
applied to negative values) and lies in `[0, 360)`. -/
theorem amplitude_phase_spec (SCALE : ℝ) (z : ℝ × ℝ) :
    amplitude_out SCALE z = Complex.abs ⟨z.1, z.2⟩ * SCALE ∧
    (phase_out z = np_arctan2 (-z.2) z.1 * 180 / Real.pi ∨
      phase_out z = np_arctan2 (-z.2) z.1 * 180 / Real.pi + 360) ∧
    0 ≤ phase_out z ∧ phase_out z < 360 := by
  have hpi := Real.pi_pos
  obtain ⟨ha1, ha2⟩ := np_arctan2_range (-z.2) z.1
  have hd1 : -180 < np_arctan2 (-z.2) z.1 * 180 / Real.pi := by
    rw [lt_div_iff hpi]
    nlinarith
  have hd2 : np_arctan2 (-z.2) z.1 * 180 / Real.pi ≤ 180 := by
    rw [div_le_iff hpi]
    nlinarith
  refine ⟨?_, ?_, ?_, ?_⟩
  · unfold amplitude_out
    rw [Complex.abs_apply, Complex.normSq_mk]
    ring_nf
  · unfold phase_out
    split
    · exact Or.inr rfl
    · exact Or.inl rfl
  · unfold phase_out
    split
    · linarith
    · rename_i h
      linarith [not_lt.1 h]
  · unfold phase_out
    split
    · rename_i h
      linarith
    · linarith

/-! ## predict_tide_drift.py -/

/-- Parameters returned by `load_constituent` (an external collaborator,
out of scope per the spec): mean amplitude, equilibrium phase, angular
frequency (rad/s), load-love scaling and species of a constituent. -/
structure ConstituentParam where
  amp : ℝ
  ph : ℝ
  omega : ℝ
  alpha : ℝ
  species : ℤ

/-- Lines 72-79: the phase argument `th` of constituent `k` at time index
`ti`.  `load_constituent` and the nodal-correction arrays `pu`, `G` returned
by `load_nodal_corrections` are external collaborators, passed as functions.
For a `CORRECTIONS` value outside the four supported conventions no branch
assigns `th`, and the use at line 81 would raise `NameError` (modelled by
`none`). -/
noncomputable def theta (CORRECTIONS : String)
    (lc : String → ConstituentParam) (pu G : ℕ → ℕ → ℝ) (t : List ℝ)
    (cons : List String) (ti k : ℕ) : Option ℝ :=
  if CORRECTIONS = "OTIS" ∨ CORRECTIONS = "ATLAS" ∨ CORRECTIONS = "netcdf" then
    some ((lc (cons.getD k "")).omega * t.getD ti 0 * 86400 +
      (lc (cons.getD k "")).ph + pu ti k)
  else if CORRECTIONS = "GOT" then
    some (G ti k * Real.pi / 180 + pu ti k)
  else none

/-- Lines 64-83: `predict_tide_drift`, per-entry view of the vectorized
constituent loop.  The series starts from `np.ma.zeros((nt))` (all-zero and
all-valid, since `np.ma.zeros` carries a false mask) and accumulates
`pf[:,k]*hc.real[:,k]*cos(th) - pf[:,k]*hc.imag[:,k]*sin(th)` for each
constituent `k`; `hc` is row-aligned with `t` and column-aligned with the
constituent list. -/
noncomputable def predict_tide_drift (t : List ℝ) (hcRe hcIm : ℕ → ℕ → ℝ)
    (cons : List String) (CORRECTIONS : String)
    (lc : String → ConstituentParam) (pu pf G : ℕ → ℕ → ℝ) :
    Option (List ℝ) :=
  (List.range t.length).mapM (fun ti =>
    (List.range cons.length).foldlM (fun acc k =>
      match theta CORRECTIONS lc pu G t cons ti k with
      | some th => some (acc + (pf ti k * hcRe ti k * Real.cos th -
          pf ti k * hcIm ti k * Real.sin th))
      | none => none) (0:ℝ))

theorem foldlM_option_some {α β : Type} (f : β → α → β) (l : List α)
    (b : β) :
    List.foldlM (fun x a => some (f x a)) b l = some (l.foldl f b) := by
  induction l generalizing b with
  | nil => rfl
  | cons a l ih => simpa using ih (f b a)

theorem mapM_loop_option_some {α β : Type} (f : α → β) (l : List α)
    (acc : List β) :
    List.mapM.loop (fun a => some (f a)) l acc =
      some (acc.reverse ++ l.map f) := by
  induction l generalizing acc with
  | nil => simp [List.mapM.loop]
  | cons a l ih => simp [List.mapM.loop, ih (f a :: acc)]

theorem mapM_option_some {α β : Type} (f : α → β) (l : List α) :
    l.mapM (fun a => some (f a)) = some (l.map f) := by
  show List.mapM.loop (fun a => some (f a)) l [] = some (l.map f)
  rw [mapM_loop_option_some]
  simp

theorem foldl_add_map_sum (g : ℕ → ℝ) (l : List ℕ) (b : ℝ) :
    l.foldl (fun acc k => acc + g k) b = b + (l.map g).sum := by
  induction l generalizing b with
  | nil => simp
  | cons a l ih => simp [ih (b + g a), add_assoc]

theorem predict_tide_drift_closed_form (t : List ℝ) (hcRe hcIm : ℕ → ℕ → ℝ)
    (cons : List String) (CORRECTIONS : String)
    (lc : String → ConstituentParam) (pu pf G : ℕ → ℕ → ℝ) (thf : ℕ → ℕ → ℝ)
    (hth : ∀ ti k, theta CORRECTIONS lc pu G t cons ti k = some (thf ti k)) :
    predict_tide_drift t hcRe hcIm cons CORRECTIONS lc pu pf G =
      some ((List.range t.length).map (fun ti =>
        ((List.range cons.length).map (fun k =>
          pf ti k * hcRe ti k * Real.cos (thf ti k) -
            pf ti k * hcIm ti k * Real.sin (thf ti k))).sum)) := by
  unfold predict_tide_drift
  have hfun : (fun ti => (List.range cons.length).foldlM (fun acc k =>
      match theta CORRECTIONS lc pu G t cons ti k with
      | some th => some (acc + (pf ti k * hcRe ti k * Real.cos th -
          pf ti k * hcIm ti k * Real.sin th))
      | none => none) (0:ℝ)) =
      (fun ti => some (((List.range cons.length).map (fun k =>
        pf ti k * hcRe ti k * Real.cos (thf ti k) -
          pf ti k * hcIm ti k * Real.sin (thf ti k))).sum)) := by
    funext ti
    have hbody : (fun (acc : ℝ) (k : ℕ) =>
        match theta CORRECTIONS lc pu G t cons ti k with
        | some th => some (acc + (pf ti k * hcRe ti k * Real.cos th -
            pf ti k * hcIm ti k * Real.sin th))
        | none => none) =
        (fun (acc : ℝ) (k : ℕ) => some (acc +
          (pf ti k * hcRe ti k * Real.cos (thf ti k) -
            pf ti k * hcIm ti k * Real.sin (thf ti k)))) := by
      funext acc k
      rw [hth ti k]
    rw [hbody, foldlM_option_some, foldl_add_map_sum]
    rw [zero_add]
  rw [hfun, mapM_option_some]

/-- Claim C5, confirmed.  For the OTIS/ATLAS/netcdf conventions the returned
series entry at each time index is the sum over constituents of
`pf[t,k] * (Re(hc[t,k]) * cos th - Im(hc[t,k]) * sin th)` with
`th = omega_k * t * 86400 + ph_k + pu[t,k]`; for the GOT convention the same
with `th = G[t,k] * pi / 180 + pu[t,k]`; and with an empty constituent list
the result is the all-zero series of length `len(t)` (all-valid, the mask of
`np.ma.zeros` staying false). -/
theorem predict_tide_drift_spec (t : List ℝ) (hcRe hcIm : ℕ → ℕ → ℝ)
    (cons : List String) (CORRECTIONS : String)
    (lc : String → ConstituentParam) (pu pf G : ℕ → ℕ → ℝ) :
    ((CORRECTIONS = "OTIS" ∨ CORRECTIONS = "ATLAS" ∨ CORRECTIONS = "netcdf") →
      predict_tide_drift t hcRe hcIm cons CORRECTIONS lc pu pf G =
        some ((List.range t.length).map (fun ti =>
          ((List.range cons.length).map (fun k =>
            pf ti k * (hcRe ti k *
                Real.cos ((lc (cons.getD k "")).omega * t.getD ti 0 * 86400 +
                  (lc (cons.getD k "")).ph + pu ti k) -
              hcIm ti k *
                Real.sin ((lc (cons.getD k "")).omega * t.getD ti 0 * 86400 +
                  (lc (cons.getD k "")).ph + pu ti k)))).sum))) ∧
    (CORRECTIONS = "GOT" →
      predict_tide_drift t hcRe hcIm cons CORRECTIONS lc pu pf G =
        some ((List.range t.length).map (fun ti =>
          ((List.range cons.length).map (fun k =>
            pf ti k * (hcRe ti k *
                Real.cos (G ti k * Real.pi / 180 + pu ti k) -
              hcIm ti k *
                Real.sin (G ti k * Real.pi / 180 + pu ti k)))).sum))) ∧
    predict_tide_drift t hcRe hcIm [] CORRECTIONS lc pu pf G =
      some (List.replicate t.length 0) := by
  refine ⟨?_, ?_, ?_⟩
  · intro h
    rw [predict_tide_drift_closed_form t hcRe hcIm cons CORRECTIONS lc pu pf G
      (fun ti k => (lc (cons.getD k "")).omega * t.getD ti 0 * 86400 +
        (lc (cons.getD k "")).ph + pu ti k)
      (fun ti k => by unfold theta; rw [if_pos h])]
    refine congrArg some (List.map_congr_left fun ti _ => ?_)
    refine congrArg List.sum (List.map_congr_left fun k _ => ?_)
    ring
  · intro h
    subst h
    rw [predict_tide_drift_closed_form t hcRe hcIm cons "GOT" lc pu pf G
      (fun ti k => G ti k * Real.pi / 180 + pu ti k)
      (fun ti k => by unfold theta; rw [if_neg (by decide), if_pos rfl])]
    refine congrArg some (List.map_congr_left fun ti _ => ?_)
    refine congrArg List.sum (List.map_congr_left fun k _ => ?_)
    ring
  · have h0 : predict_tide_drift t hcRe hcIm [] CORRECTIONS lc pu pf G =
        (List.range t.length).mapM (fun _ => some (0:ℝ)) := rfl
    rw [h0, mapM_option_some]
    simp

/-- Witness for C5 with the OTIS convention, a single time and no
constituents: the series is the all-zero series of length 1. -/
theorem predict_tide_drift_spec_witness :
    predict_tide_drift [0] (fun _ _ => 0) (fun _ _ => 0) [] "OTIS"
      (fun _ => ⟨0, 0, 0, 0, 0⟩) (fun _ _ => 0) (fun _ _ => 0)
      (fun _ _ => 0) = some [0] := by
  have h := (predict_tide_drift_spec [0] (fun _ _ => 0) (fun _ _ => 0) []
    "OTIS" (fun _ => ⟨0, 0, 0, 0, 0⟩) (fun _ _ => 0) (fun _ _ => 0)
    (fun _ _ => 0)).1 (Or.inl rfl)
  simpa using h

end Captoolkit
